import Mathlib

/-!
Shallow embedding of `src/crawly/crawly.py` (the Crawly drawing toolkit).

Time is modelled as exact rational seconds; the simulated wall clock is
passed explicitly to `TimedQueue.pop` in place of `time.time()`.
Draw commands are modelled as abstract items that either succeed
(producing a screen effect) or raise; executing a composite command
produces a trace of events (background fill, item executions, error
reports, buffer flip) together with a flag telling whether an uncaught
exception escaped the executor.

Python lists are mutable objects; `redraw` pushes the very list object
`data.draw_list` (not a copy) onto the render queue, while `draw` pushes
a copy.  The embedding keeps this distinction with `ListRef`: an `owned`
snapshot for `draw`, and `pendingRef` (a reference to the shared
`draw_list` field, resolved at execution time) for `redraw`.
-/

namespace Crawly

/-- `TimedQueue` from `crawly.py`: an ordered buffer with a cooldown gate
on extraction.  `cooldown` and `t` are in seconds, as in the source. -/
structure TimedQueue (α : Type) where
  elements : List α
  cooldown : ℚ
  time_since : ℚ
  t : ℚ
deriving Repr

namespace TimedQueue

/-- `TimedQueue.__init__(cooldown)`: millis are converted to seconds. -/
def init (α : Type) (cooldown : ℚ) : TimedQueue α :=
  { elements := [], cooldown := cooldown / 1000, time_since := 0, t := 0 }

/-- `TimedQueue.set_cooldown(cool)`. -/
def set_cooldown (q : TimedQueue α) (cool : ℚ) : TimedQueue α :=
  { q with cooldown := cool / 1000 }

/-- `TimedQueue.push(el)`: append at the tail. -/
def push (q : TimedQueue α) (el : α) : TimedQueue α :=
  { q with elements := q.elements ++ [el] }

/-- `TimedQueue._pop()`: take `elements[0]` and remove it (its first
occurrence, which is index 0); `None` on an empty list. -/
def popRaw (q : TimedQueue α) : Option α × TimedQueue α :=
  match q.elements with
  | [] => (none, q)
  | e :: rest => (some e, { q with elements := rest })

/-- `TimedQueue.pop()`, with the wall-clock reading `now` passed in for
`time.time()`.  The elapsed accumulator grows by `now - t`; when it
strictly exceeds the cooldown it is reset to zero and the head (if any)
is extracted, otherwise nothing is returned and nothing else changes. -/
def pop (q : TimedQueue α) (now : ℚ) : Option α × TimedQueue α :=
  let q1 : TimedQueue α := { q with time_since := q.time_since + (now - q.t), t := now }
  if q1.cooldown < q1.time_since then
    popRaw { q1 with time_since := 0 }
  else
    (none, q1)

/-- Repeated polling: pop once at each time in `ts`, in order, collecting
the successfully returned elements. -/
def popSeq (q : TimedQueue α) : List ℚ → List α × TimedQueue α
  | [] => ([], q)
  | now :: ts =>
      let r := q.pop now
      let rest := popSeq r.2 ts
      match r.1 with
      | none => rest
      | some x => (x :: rest.1, rest.2)

/-- Push each element of `xs` in order. -/
def pushAll (q : TimedQueue α) (xs : List α) : TimedQueue α :=
  xs.foldl push q

end TimedQueue

/-- `set_speed`: clamp the speed into `[1, 10]` as the source does. -/
def clamp_speed (speed : ℤ) : ℤ :=
  if speed < 1 then 1 else if speed > 10 then 10 else speed

/-- `set_speed`: the cooldown in milliseconds computed from the clamped
speed, `data.ms = 33 + 197 * (10 - speed)`. -/
def set_speed_ms (speed : ℤ) : ℤ :=
  33 + 197 * (10 - clamp_speed speed)

/-- `set_speed` also installs the new cooldown on the render queue via
`set_cooldown(data.ms)`. -/
def set_speed_queue (q : TimedQueue α) (speed : ℤ) : TimedQueue α :=
  q.set_cooldown (set_speed_ms speed : ℤ)

/-- Colors stay abstract. -/
abbrev Color := Nat

/-- A queued draw item: the zero-argument pygame closure appended by
`add_draw_item`.  Executing it either draws (screen effect `id`) or
raises an exception (`fails = true`). -/
structure Item where
  fails : Bool
  id : Nat
deriving DecidableEq, Repr

/-- Observable render-thread effects of executing a composite command. -/
inductive Event where
  | fill (c : Color)
  | drawn (i : Nat)
  | errorReported (i : Nat)
  | flip
deriving DecidableEq, Repr

/-- The list argument captured in a composite command.  `draw` pushes
`data.draw_list.copy()` (an `owned` snapshot); `redraw` pushes the
shared `data.draw_list` object itself (`pendingRef`), whose contents are
whatever `data.draw_list` holds when the command finally runs. -/
inductive ListRef where
  | owned (items : List Item)
  | pendingRef
deriving DecidableEq, Repr

/-- The `[do_draw, (refresh, ls)]` entry pushed onto `render_commands`. -/
structure Composite where
  refresh : Bool
  items : ListRef
deriving DecidableEq, Repr

/-- The fields of the global `Data` object that the render path uses. -/
structure Data where
  background : Color
  draw_list : List Item
  background_list : List Item
  render_commands : TimedQueue Composite
  draw_background : Bool
deriving Repr

/-- `add_draw_item(f)`: appended to `background_list` too while the
capture flag is up, and always to `draw_list`. -/
def add_draw_item (d : Data) (i : Item) : Data :=
  { d with
    background_list :=
      if d.draw_background then d.background_list ++ [i] else d.background_list
    draw_list := d.draw_list ++ [i] }

/-- `draw()`: push a composite carrying a copy of `draw_list` with
`refresh = False`, then clear `draw_list`. -/
def draw (d : Data) : Data :=
  { d with
    render_commands := d.render_commands.push ⟨false, ListRef.owned d.draw_list⟩
    draw_list := [] }

/-- `redraw()`: push a composite carrying the shared `draw_list` object
itself with `refresh = True`, then clear `draw_list` — which also empties
the list just pushed, since both are the same object. -/
def redraw (d : Data) : Data :=
  { d with
    render_commands := d.render_commands.push ⟨true, ListRef.pendingRef⟩
    draw_list := [] }

/-- The contents a `ListRef` resolves to at execution time. -/
def resolveRef (d : Data) : ListRef → List Item
  | ListRef.owned l => l
  | ListRef.pendingRef => d.draw_list

/-- `draw_list.clear()` at the end of `do_draw`: clearing an owned copy
is invisible to the shared state; clearing the shared object empties
`data.draw_list`. -/
def clearRef (d : Data) : ListRef → Data
  | ListRef.owned _ => d
  | ListRef.pendingRef => { d with draw_list := [] }

/-- The guarded loop `for i in draw_list: try i() except print(...)`:
every item runs, a raising item is reported and skipped. -/
def runGuarded (l : List Item) : List Event :=
  l.map fun i => if i.fails then Event.errorReported i.id else Event.drawn i.id

/-- The unguarded loop `for i in background_list: i()`: events up to the
first raising item, plus whether an exception escaped. -/
def runUnguarded : List Item → List Event × Bool
  | [] => ([], false)
  | i :: rest =>
      if i.fails then ([], true)
      else
        let r := runUnguarded rest
        (Event.drawn i.id :: r.1, r.2)

/-- `do_draw(refresh, draw_list)`: on a refresh, fill with the background
color and replay `background_list` unguarded; then run the captured list
guarded, clear it, and flip.  Returns the new state, the event trace, and
whether an uncaught exception escaped (aborting the rest, the clear and
the flip, as it would in Python). -/
def do_draw (d : Data) (c : Composite) : Data × List Event × Bool :=
  let pre : List Event × Bool :=
    if c.refresh then
      let r := runUnguarded d.background_list
      (Event.fill d.background :: r.1, r.2)
    else ([], false)
  if pre.2 then
    (d, pre.1, true)
  else
    (clearRef d c.items, pre.1 ++ runGuarded (resolveRef d c.items) ++ [Event.flip], false)

/-- The flags of the window loop in `pygame_loop` plus the shutdown flag
set by `done()`. -/
structure LoopState where
  running : Bool
  done : Bool
deriving DecidableEq, Repr

/-- Events drained by `pygame.event.get()`: a window-close request
(`pygame.QUIT`) or anything else. -/
inductive PEvent where
  | quit
  | other
deriving DecidableEq, Repr

/-- What one loop iteration or API call may do to the loop flags. -/
inductive LAction where
  | renderTick
  | event (e : PEvent)
  | callDone
deriving DecidableEq, Repr

/-- One step of the flag-state machine: executing a popped command never
touches the flags; an event sets `running := False` only when it is
`QUIT` and `done` is already set; `done()` sets the shutdown flag. -/
def lstep (s : LoopState) : LAction → LoopState
  | LAction.renderTick => s
  | LAction.event e =>
      match e with
      | PEvent.quit => if s.done then { s with running := false } else s
      | PEvent.other => s
  | LAction.callDone => { s with done := true }

/-- The flag state right after `start()`: `running = True`, `done = False`. -/
def startState : LoopState := { running := true, done := false }

/-- A concrete `Data` state (fresh queue, empty lists) used to instantiate
theorems at concrete inputs. -/
def sampleData : Data :=
  { background := 0, draw_list := [], background_list := [],
    render_commands := TimedQueue.init Composite 1000, draw_background := false }

end Crawly

open Crawly

/-- `pushAll` appends the pushed elements at the tail, in order, and leaves
the timing fields and the cooldown untouched. -/
theorem pushAll_fields (α : Type) (q : TimedQueue α) (xs : List α) :
    (q.pushAll xs).elements = q.elements ++ xs ∧
    (q.pushAll xs).cooldown = q.cooldown ∧
    (q.pushAll xs).time_since = q.time_since ∧
    (q.pushAll xs).t = q.t := by
  induction xs generalizing q with
  | nil => simp [TimedQueue.pushAll]
  | cons x xs ih =>
      have h := ih (q.push x)
      simp only [TimedQueue.pushAll, List.foldl_cons] at h ⊢
      refine ⟨?_, h.2.1, h.2.2.1, h.2.2.2⟩
      rw [h.1]
      simp [TimedQueue.push]

/-- C1 (amended): a pop returns the head element exactly when the updated
elapsed accumulator strictly exceeds the cooldown and the queue is nonempty;
whenever the gate opens the accumulator is reset to zero and the head (if
any) is removed; when the gate stays closed nothing is returned, the
elements are unchanged, and the accumulator keeps the accumulated value. -/
theorem C1_pop_gate (α : Type) (q : TimedQueue α) (now : ℚ) :
    (q.cooldown < q.time_since + (now - q.t) →
      (q.pop now).1 = q.elements.head? ∧
      (q.pop now).2.elements = q.elements.tail ∧
      (q.pop now).2.time_since = 0) ∧
    (¬ q.cooldown < q.time_since + (now - q.t) →
      (q.pop now).1 = none ∧
      (q.pop now).2.elements = q.elements ∧
      (q.pop now).2.time_since = q.time_since + (now - q.t)) := by
  constructor
  · intro h
    unfold TimedQueue.pop
    simp only []
    rw [if_pos (by simpa using h)]
    cases hq : q.elements <;> simp [TimedQueue.popRaw, hq]
  · intro h
    unfold TimedQueue.pop
    simp only []
    rw [if_neg (by simpa using h)]
    exact ⟨rfl, rfl, rfl⟩

/-- Witness for C1 at a concrete queue: cooldown 1000 ms, one element 5
pushed at construction; a poll at 2 s passes the gate and returns 5 with the
accumulator reset, a poll at 1 s (elapsed exactly the cooldown) returns
nothing and keeps the element. -/
theorem C1_pop_gate_witness :
    ((((TimedQueue.init Nat 1000).push 5).pop 2).1 = some 5 ∧
     (((TimedQueue.init Nat 1000).push 5).pop 2).2.time_since = 0) ∧
    ((((TimedQueue.init Nat 1000).push 5).pop 1).1 = none ∧
     (((TimedQueue.init Nat 1000).push 5).pop 1).2.elements = [5]) := by
  have hopen := (C1_pop_gate Nat ((TimedQueue.init Nat 1000).push 5) 2).1
    (by norm_num [TimedQueue.init, TimedQueue.push])
  have hclosed := (C1_pop_gate Nat ((TimedQueue.init Nat 1000).push 5) 1).2
    (by norm_num [TimedQueue.init, TimedQueue.push])
  refine ⟨⟨?_, hopen.2.2⟩, hclosed.1, ?_⟩
  · rw [hopen.1]; rfl
  · rw [hclosed.2.1]; rfl

/-- C1 as stated is false: with a 1000 ms cooldown and one queued element, a
poll at the instant where the accumulated elapsed time equals the cooldown
satisfies "at least the cooldown", yet the pop returns nothing and the
element stays queued, because the code's gate test is strict. -/
theorem C1_counterexample :
    ((TimedQueue.init Nat 1000).push 5).time_since
        + ((1 : ℚ) - ((TimedQueue.init Nat 1000).push 5).t)
      ≥ ((TimedQueue.init Nat 1000).push 5).cooldown ∧
    (((TimedQueue.init Nat 1000).push 5).pop 1).1 = none ∧
    (((TimedQueue.init Nat 1000).push 5).pop 1).2.elements = [5] := by
  norm_num [TimedQueue.init, TimedQueue.push, TimedQueue.pop, TimedQueue.popRaw]

/-- C3 as stated is false at input 0: the code computes 33 + 197 * 9 = 1806
milliseconds, not 1790. -/
theorem C3_counterexample :
    Crawly.set_speed_ms 0 = 1806 ∧ (1806 : ℤ) ≠ 1790 := by decide

/-- C3 (amended): `set_speed` clamps the level into [1, 10] and sets the
cooldown to 33 + 197 * (10 - level) milliseconds; input 0 yields 1806 ms,
input 11 yields 33 ms, input 5 yields 1018 ms; the render queue's cooldown
field becomes that value converted to seconds. -/
theorem C3_set_speed (speed : ℤ) (q : TimedQueue Composite) :
    Crawly.clamp_speed speed = max 1 (min 10 speed) ∧
    Crawly.set_speed_ms speed = 33 + 197 * (10 - Crawly.clamp_speed speed) ∧
    (Crawly.set_speed_queue q speed).cooldown
      = ((Crawly.set_speed_ms speed : ℤ) : ℚ) / 1000 ∧
    Crawly.set_speed_ms 0 = 1806 ∧
    Crawly.set_speed_ms 11 = 33 ∧
    Crawly.set_speed_ms 5 = 1018 := by
  refine ⟨?_, rfl, rfl, by decide, by decide, by decide⟩
  simp only [Crawly.clamp_speed]
  split
  · omega
  · split <;> omega

/-- C4 as stated is false: on an empty queue with a 1000 ms cooldown, a poll
at time 2 s returns nothing, yet the accumulated elapsed time (2 s at the
start of the poll) is reset to zero because the gate opened. -/
theorem C4_counterexample :
    ((TimedQueue.init Nat 1000).pop 2).1 = none ∧
    (TimedQueue.init Nat 1000).time_since + ((2 : ℚ) - (TimedQueue.init Nat 1000).t) = 2 ∧
    ((TimedQueue.init Nat 1000).pop 2).2.time_since = 0 ∧ (0 : ℚ) ≠ 2 := by
  norm_num [TimedQueue.init, TimedQueue.pop, TimedQueue.popRaw]

/-- C4 (amended): a poll where the accumulator does not strictly exceed the
cooldown returns nothing, leaves the elements unchanged, and does not reset
the accumulator: it grows by exactly the wall-clock delta, so it accumulates
monotonically across gate-closed polls (a gate-open poll resets it even when
the queue is empty, see the counterexample). -/
theorem C4_gate_closed_no_reset (α : Type) (q : TimedQueue α) (now : ℚ)
    (hgate : ¬ q.cooldown < q.time_since + (now - q.t)) :
    (q.pop now).1 = none ∧
    (q.pop now).2.elements = q.elements ∧
    (q.pop now).2.time_since = q.time_since + (now - q.t) ∧
    (q.t ≤ now → q.time_since ≤ (q.pop now).2.time_since) := by
  unfold TimedQueue.pop
  simp only []
  rw [if_neg (by simpa using hgate)]
  refine ⟨rfl, rfl, rfl, fun hle => ?_⟩
  simp only []
  linarith

/-- Witness for C4 at a concrete queue: cooldown 1000 ms, element 7 queued,
poll at 0.5 s: the gate stays closed, nothing is returned, and the
accumulator has not shrunk. -/
theorem C4_gate_closed_no_reset_witness :
    (((TimedQueue.init Nat 1000).push 7).pop (1 / 2)).1 = none ∧
    ((TimedQueue.init Nat 1000).push 7).time_since
      ≤ (((TimedQueue.init Nat 1000).push 7).pop (1 / 2)).2.time_since := by
  have h := C4_gate_closed_no_reset Nat ((TimedQueue.init Nat 1000).push 7) (1 / 2)
    (by norm_num [TimedQueue.init, TimedQueue.push])
  exact ⟨h.1, h.2.2.2 (by norm_num [TimedQueue.init, TimedQueue.push])⟩

/-- C10 (confirmed): a freshly constructed queue has `t = 0`, so the first
pop at wall-clock time `T` computes an elapsed accumulator equal to the
absolute timestamp `T`; whenever `T` exceeds the cooldown (in seconds) —
always the case in practice, as `T` is the time since the epoch — the first
pop passes the gate immediately and returns the first queued element. -/
theorem C10_first_pop (α : Type) (c : ℚ) (x : α) (xs : List α) (T : ℚ)
    (h : c / 1000 < T) :
    (TimedQueue.init α c).t = 0 ∧
    ((TimedQueue.init α c).pushAll (x :: xs)).time_since
        + (T - ((TimedQueue.init α c).pushAll (x :: xs)).t) = T ∧
    (((TimedQueue.init α c).pushAll (x :: xs)).pop T).1 = some x := by
  obtain ⟨he, hc, hts, ht⟩ := pushAll_fields α (TimedQueue.init α c) (x :: xs)
  have hts0 : ((TimedQueue.init α c).pushAll (x :: xs)).time_since = 0 := by
    rw [hts]; rfl
  have ht0 : ((TimedQueue.init α c).pushAll (x :: xs)).t = 0 := by
    rw [ht]; rfl
  have he' : ((TimedQueue.init α c).pushAll (x :: xs)).elements = x :: xs := by
    rw [he]; rfl
  refine ⟨rfl, by rw [hts0, ht0]; ring, ?_⟩
  unfold TimedQueue.pop
  simp only []
  rw [if_pos ?_]
  · simp [TimedQueue.popRaw, he']
  · simp only [hc, hts0, ht0]
    show (TimedQueue.init α c).cooldown < 0 + (T - 0)
    simpa [TimedQueue.init] using h

/-- Witness for C10: cooldown 1000 ms, elements 4 then 5 pushed; the first
pop at epoch-style time 1000000 s returns 4. -/
theorem C10_first_pop_witness :
    (((TimedQueue.init Nat 1000).pushAll [4, 5]).pop 1000000).1 = some 4 :=
  (C10_first_pop Nat 1000 4 [5] 1000000 (by norm_num)).2.2

/-- The extraction order of `popSeq` is the element order of the queue: with
a zero start accumulator and poll times separated by more than the cooldown,
every poll succeeds and the elements come back in queue order. -/
theorem popSeq_ordered (α : Type) (q : TimedQueue α) (ts : List ℚ)
    (hts : q.time_since = 0)
    (hchain : List.Chain (fun a b => q.cooldown < b - a) q.t ts)
    (hlen : ts.length = q.elements.length) :
    (q.popSeq ts).1 = q.elements := by
  induction ts generalizing q with
  | nil =>
      cases hq : q.elements with
      | nil => simp [TimedQueue.popSeq]
      | cons e rest => rw [hq] at hlen; simp at hlen
  | cons t ts ih =>
      rw [List.chain_cons] at hchain
      cases hq : q.elements with
      | nil => rw [hq] at hlen; simp at hlen
      | cons e rest =>
          have hpop : q.pop t = (some e, { q with elements := rest, time_since := 0, t := t }) := by
            unfold TimedQueue.pop
            simp only []
            rw [if_pos (by simp only [hts]; linarith [hchain.1])]
            simp [TimedQueue.popRaw, hq]
          have hrest := ih { q with elements := rest, time_since := 0, t := t } rfl hchain.2
            (by rw [hq] at hlen; simpa using hlen)
          unfold TimedQueue.popSeq
          simp only [hpop]
          simpa using hrest

/-- C9 (confirmed): pushing a sequence of commands and popping at times that
each leave the gate open returns exactly the pushed sequence, in push order,
one element per successful pop; and within a composite all captured items
execute in exactly their append order, with no reordering. -/
theorem C9_ordering (α : Type) (c : ℚ) (xs : List α) (ts : List ℚ)
    (hchain : List.Chain (fun a b => c / 1000 < b - a) 0 ts)
    (hlen : ts.length = xs.length) :
    (((TimedQueue.init α c).pushAll xs).popSeq ts).1 = xs ∧
    ∀ (d : Data) (L : List Item), (∀ i ∈ L, i.fails = false) →
      (do_draw d ⟨false, ListRef.owned L⟩).2.1
        = L.map (fun i => Event.drawn i.id) ++ [Event.flip] := by
  obtain ⟨he, hc, hts, ht⟩ := pushAll_fields α (TimedQueue.init α c) xs
  have he' : ((TimedQueue.init α c).pushAll xs).elements = xs := by rw [he]; rfl
  constructor
  · have h := popSeq_ordered α ((TimedQueue.init α c).pushAll xs) ts
      (by rw [hts]; rfl)
      (by simp only [hc, ht]; simpa [TimedQueue.init] using hchain)
      (by rw [he']; exact hlen)
    rw [he'] at h
    exact h
  · intro d L hL
    simp only [do_draw, resolveRef, runGuarded, clearRef]
    simp only [if_neg (by simp : ¬ (false = true)), Bool.false_eq_true, if_false]
    simp only [List.nil_append]
    congr 1
    exact List.map_congr_left fun i hi => by simp [hL i hi]

/-- Witness for C9: elements 10, 20, 30 pushed with a 1000 ms cooldown and
polled at 2 s, 4 s, 6 s come back as [10, 20, 30]; a two-item captured list
executes in append order then flips. -/
theorem C9_ordering_witness :
    (((TimedQueue.init Nat 1000).pushAll [10, 20, 30]).popSeq [2, 4, 6]).1 = [10, 20, 30] ∧
    (do_draw sampleData ⟨false, ListRef.owned [⟨false, 1⟩, ⟨false, 2⟩]⟩).2.1
      = [Event.drawn 1, Event.drawn 2, Event.flip] := by
  have h := C9_ordering Nat 1000 [10, 20, 30] [2, 4, 6]
    (by simp [List.chain_cons]; norm_num) (by simp)
  refine ⟨h.1, ?_⟩
  have h2 := h.2 sampleData [⟨false, 1⟩, ⟨false, 2⟩] (by decide)
  simpa using h2

/-- Replaying an all-succeeding item list unguarded draws every item in
order and lets no exception escape. -/
theorem runUnguarded_ok (l : List Item) (h : ∀ i ∈ l, i.fails = false) :
    runUnguarded l = (l.map fun i => Event.drawn i.id, false) := by
  induction l with
  | nil => rfl
  | cons i rest ih =>
      have hi : i.fails = false := h i (by simp)
      have hr := ih fun j hj => h j (by simp [hj])
      simp [runUnguarded, hi, hr]

/-- Clearing an already-empty `draw_list` is the identity on `Data`. -/
theorem data_clear_empty (d : Data) (h : d.draw_list = []) :
    { d with draw_list := [] } = d := by
  cases d
  simp only [Data.mk.injEq, and_true, true_and]
  simp_all

/-- Executing the shared-list refresh composite on a state whose pending
list is empty and whose background items all succeed: the trace is the
background fill, the background replays in order, and the flip; the state is
unchanged. -/
theorem do_draw_refresh_trace (d : Data) (h : d.draw_list = [])
    (hbg : ∀ i ∈ d.background_list, i.fails = false) :
    (do_draw d ⟨true, ListRef.pendingRef⟩).2.1
      = Event.fill d.background
        :: (d.background_list.map (fun i => Event.drawn i.id) ++ [Event.flip]) ∧
    (do_draw d ⟨true, ListRef.pendingRef⟩).1 = d := by
  simp [do_draw, runUnguarded_ok d.background_list hbg, resolveRef, clearRef,
    runGuarded, h, data_clear_empty d h]

/-- C7 (confirmed): `redraw()` on an empty pending list enqueues the
refresh-tagged composite and keeps the pending list empty; executing that
composite — once, or again after any number of repetitions — fills the
screen with the background color, replays exactly the background list in
insertion order, and flips. -/
theorem C7_redraw_empty_idempotent (d : Data) (n : ℕ)
    (_hempty : d.draw_list = [])
    (hbg : ∀ i ∈ d.background_list, i.fails = false) :
    (redraw d).render_commands.elements
      = d.render_commands.elements ++ [⟨true, ListRef.pendingRef⟩] ∧
    (redraw d).draw_list = [] ∧
    (do_draw ((fun s => (do_draw s ⟨true, ListRef.pendingRef⟩).1)^[n] (redraw d))
        ⟨true, ListRef.pendingRef⟩).2.1
      = Event.fill d.background
        :: (d.background_list.map (fun i => Event.drawn i.id) ++ [Event.flip]) := by
  have hfix : (fun s => (do_draw s ⟨true, ListRef.pendingRef⟩).1)^[n] (redraw d)
      = redraw d := by
    induction n with
    | zero => rfl
    | succ k ih =>
        rw [Function.iterate_succ_apply', ih]
        exact (do_draw_refresh_trace (redraw d) rfl hbg).2
  refine ⟨rfl, rfl, ?_⟩
  rw [hfix]
  exact (do_draw_refresh_trace (redraw d) rfl hbg).1

/-- Witness for C7: background color 3 and one background item 8; after two
repeated executions of the composite enqueued by `redraw()` on an empty
pending list, a further execution still yields fill, item 8, flip. -/
theorem C7_redraw_empty_idempotent_witness :
    (do_draw ((fun s => (do_draw s ⟨true, ListRef.pendingRef⟩).1)^[2]
        (redraw { sampleData with background := 3, background_list := [⟨false, 8⟩] }))
      ⟨true, ListRef.pendingRef⟩).2.1
      = Event.fill 3 :: ([Event.drawn 8] ++ [Event.flip]) := by
  have h := C7_redraw_empty_idempotent
    { sampleData with background := 3, background_list := [⟨false, 8⟩] } 2 rfl (by decide)
  simpa using h.2.2

/-- C8 (confirmed): `draw()` enqueues a composite tagged `refresh = false`
carrying a snapshot of the current pending list, clears the pending list,
and leaves the background list unchanged; executing such a composite later
leaves the shared state (in particular the pending list) untouched. -/
theorem C8_draw_snapshot (d : Data) :
    (draw d).render_commands.elements
      = d.render_commands.elements ++ [⟨false, ListRef.owned d.draw_list⟩] ∧
    (draw d).draw_list = [] ∧
    (draw d).background_list = d.background_list ∧
    ∀ (d2 : Data) (L : List Item),
      (do_draw d2 ⟨false, ListRef.owned L⟩).1 = d2 :=
  ⟨rfl, rfl, rfl, fun _ _ => rfl⟩

/-- C2: evaluation at the failing input.  With one pending item (id 42),
`redraw()` pushes the composite referencing the shared pending list and then
clears that very list; executing the queued composite therefore draws
nothing from the captured list — the trace is only the background fill and
the flip, and item 42 is never drawn. -/
theorem C2_redraw_alias_eval :
    (redraw { sampleData with background := 9, draw_list := [⟨false, 42⟩] }).render_commands.elements
      = [⟨true, ListRef.pendingRef⟩] ∧
    (redraw { sampleData with background := 9, draw_list := [⟨false, 42⟩] }).draw_list = [] ∧
    (do_draw (redraw { sampleData with background := 9, draw_list := [⟨false, 42⟩] })
        ⟨true, ListRef.pendingRef⟩).2.1
      = [Event.fill 9, Event.flip] ∧
    Event.drawn 42 ∉
      (do_draw (redraw { sampleData with background := 9, draw_list := [⟨false, 42⟩] })
        ⟨true, ListRef.pendingRef⟩).2.1 := by
  refine ⟨rfl, rfl, rfl, ?_⟩
  decide

/-- C5 (amended): items of the captured draw list are guarded: a raising
captured item is reported and skipped, every other captured item still
executes in order, no exception escapes, and the flip occurs — provided the
background replay on a refresh raises nothing; background-list items are the
exception: they run unguarded (see the counterexample). -/
theorem C5_item_error_isolation (d : Data) (c : Composite)
    (hbg : c.refresh = true → ∀ i ∈ d.background_list, i.fails = false) :
    (do_draw d c).2.2 = false ∧
    (do_draw d c).2.1
      = (if c.refresh then
           Event.fill d.background :: d.background_list.map (fun i => Event.drawn i.id)
         else [])
        ++ ((resolveRef d c.items).map
              (fun i => if i.fails then Event.errorReported i.id else Event.drawn i.id)
            ++ [Event.flip]) ∧
    ∀ i ∈ resolveRef d c.items, i.fails = true →
      Event.errorReported i.id ∈ (do_draw d c).2.1 := by
  have hmain : (do_draw d c).2.2 = false ∧ (do_draw d c).2.1
      = (if c.refresh then
           Event.fill d.background :: d.background_list.map (fun i => Event.drawn i.id)
         else [])
        ++ ((resolveRef d c.items).map
              (fun i => if i.fails then Event.errorReported i.id else Event.drawn i.id)
            ++ [Event.flip]) := by
    cases hr : c.refresh with
    | false => simp [do_draw, hr, runGuarded]
    | true =>
        have hok := runUnguarded_ok d.background_list (hbg hr)
        simp [do_draw, hr, hok, runGuarded]
  refine ⟨hmain.1, hmain.2, fun i hi hfail => ?_⟩
  rw [hmain.2]
  refine List.mem_append_right _ (List.mem_append_left _ ?_)
  exact List.mem_map.mpr ⟨i, hi, by simp [hfail]⟩

/-- Witness for C5: a composite with captured items (failing 3, succeeding 4)
executed after a refresh over an empty background list: no exception escapes
and the failure of item 3 is reported in the trace. -/
theorem C5_item_error_isolation_witness :
    (do_draw sampleData ⟨true, ListRef.owned [⟨true, 3⟩, ⟨false, 4⟩]⟩).2.2 = false ∧
    Event.errorReported 3
      ∈ (do_draw sampleData ⟨true, ListRef.owned [⟨true, 3⟩, ⟨false, 4⟩]⟩).2.1 := by
  have h := C5_item_error_isolation sampleData ⟨true, ListRef.owned [⟨true, 3⟩, ⟨false, 4⟩]⟩
    (by intro _ i hi; simp [sampleData] at hi)
  exact ⟨h.1, h.2.2 ⟨true, 3⟩ (by decide) rfl⟩

/-- C5 as stated is false for background items: a raising background item
replayed on a refresh is not caught — the exception escapes the composite
executor, the captured item never executes, and no flip occurs. -/
theorem C5_counterexample :
    (do_draw { sampleData with background_list := [⟨true, 7⟩] }
        ⟨true, ListRef.owned [⟨false, 1⟩]⟩).2.2 = true ∧
    Event.flip ∉ (do_draw { sampleData with background_list := [⟨true, 7⟩] }
        ⟨true, ListRef.owned [⟨false, 1⟩]⟩).2.1 ∧
    Event.drawn 1 ∉ (do_draw { sampleData with background_list := [⟨true, 7⟩] }
        ⟨true, ListRef.owned [⟨false, 1⟩]⟩).2.1 := by
  decide

/-- C6 (confirmed): in the loop-flag state machine, a step turns `running`
from true to false only on a window-close event observed while the shutdown
flag `done` is set; any sequence of steps with no `done()` call — window
close events included — keeps `running` true from the start state; and once
`done` is set a close event does stop the loop. -/
theorem C6_close_semantics :
    (∀ (s : LoopState) (a : LAction), s.running = true → (lstep s a).running = false →
        a = LAction.event PEvent.quit ∧ s.done = true) ∧
    (∀ acts : List LAction, LAction.callDone ∉ acts →
        (List.foldl lstep startState acts).running = true) ∧
    (lstep { running := true, done := true } (LAction.event PEvent.quit)).running = false := by
  refine ⟨?_, ?_, rfl⟩
  · intro s a hrun hstop
    cases a with
    | renderTick => exact absurd hstop (by simp [lstep, hrun])
    | event e =>
        cases e with
        | quit =>
            by_cases hd : s.done = true
            · exact ⟨rfl, hd⟩
            · exact absurd hstop (by simp [lstep, hd, hrun])
        | other => exact absurd hstop (by simp [lstep, hrun])
    | callDone => exact absurd hstop (by simp [lstep, hrun])
  · intro acts hno
    have hstay : List.foldl lstep startState acts = startState := by
      induction acts with
      | nil => rfl
      | cons a rest ih =>
          have ha : a ≠ LAction.callDone := fun h => hno (h ▸ List.mem_cons_self a rest)
          have hstep : lstep startState a = startState := by
            cases a with
            | renderTick => rfl
            | event e => cases e <;> rfl
            | callDone => exact absurd rfl ha
          rw [List.foldl_cons, hstep]
          exact ih fun h => hno (List.mem_cons_of_mem a h)
    rw [hstay]
    rfl

/-- Witness for C6: a quit event in a state where `done` is set satisfies the
only-if characterization, and a run from the start state that sees a quit
event and a render tick but no `done()` call still has `running = true`. -/
theorem C6_close_semantics_witness :
    (LAction.event PEvent.quit = LAction.event PEvent.quit ∧
      ({ running := true, done := true } : LoopState).done = true) ∧
    (List.foldl lstep startState [LAction.event PEvent.quit, LAction.renderTick]).running
      = true :=
  ⟨C6_close_semantics.1 { running := true, done := true } (LAction.event PEvent.quit) rfl rfl,
   C6_close_semantics.2.1 [LAction.event PEvent.quit, LAction.renderTick] (by decide)⟩

/-- C7 as stated is false for a background list containing a raising item:
with an empty pending list, executing the composite enqueued by `redraw()`
aborts the replay at the raising item (the background loop is unguarded), so
the later background command (item 8) is never executed and no flip occurs —
the background list is not replayed exactly. -/
theorem C7_counterexample :
    (do_draw (redraw { sampleData with background_list := [⟨true, 7⟩, ⟨false, 8⟩] })
        ⟨true, ListRef.pendingRef⟩).2.2 = true ∧
    Event.drawn 8 ∉
      (do_draw (redraw { sampleData with background_list := [⟨true, 7⟩, ⟨false, 8⟩] })
        ⟨true, ListRef.pendingRef⟩).2.1 ∧
    Event.flip ∉
      (do_draw (redraw { sampleData with background_list := [⟨true, 7⟩, ⟨false, 8⟩] })
        ⟨true, ListRef.pendingRef⟩).2.1 := by
  decide
